import Mathlib

/-!
Verification development for the job-hunt-assistant repository.

The file embeds, as Lean definitions, the parts of the program that the
stated properties talk about: the React UI hooks (job status updates,
application filtering, authentication state) directly from the TypeScript
sources, and the discovery/matching/workflow core, whose Python sources are
not part of the repository snapshot, modelled from the specification text.
Theorems about these definitions follow after the definitions.
-/

namespace JobHunt

/-- Lower-cases every character of a string; models
`String.prototype.toLowerCase` as used throughout the UI code. -/
def lowerStr (s : String) : String := s.map Char.toLower

/-- Substring test on strings; models `String.prototype.includes`:
`includesB hay needle` is true when `needle` occurs contiguously in `hay`. -/
def includesB (hay needle : String) : Bool := decide (needle.toList <:+: hay.toList)

/-! ### Job records and `updateJobStatus` (src/job_hunt_ui/src/hooks, `useJobs`)

The `Job` interface of the UI hook, with its fields carried over; date and
timestamp strings are kept as strings exactly as in the interface. -/

structure Job where
  id : Nat
  title : String
  company : String
  location : String
  job_type : String
  description : String
  application_url : String
  source_website : String
  date_posted : String
  date_scraped : String
  salary_range : String
  h1b_sponsorship : Bool
  status : String
  match_score : ℚ
  created_at : String
  updated_at : String
  deriving Repr, DecidableEq

/-- The `setJobs` updater inside `updateJobStatus`:
`prevJobs.map(job => job.id === jobId ? { ...job, status } : job)`. -/
def updateJobsList (jobs : List Job) (jobId : Nat) (status : String) : List Job :=
  jobs.map fun job => if job.id = jobId then { job with status := status } else job

/-- The `setCurrentJob` step of `updateJobStatus`: the currently selected job
is re-created with the new status only when its id matches; otherwise it is
left untouched. -/
def updateCurrentJob (currentJob : Option Job) (jobId : Nat) (status : String) :
    Option Job :=
  match currentJob with
  | none => none
  | some j => if j.id = jobId then some { j with status := status } else some j

/-! ### Application tracking and filtering (src/job_hunt_ui/src/pages/ApplicationTracker.tsx)

Application dates are modelled as integer day numbers so that the
`thirtyDaysAgo` comparison of the source is the comparison with `now - 30`. -/

structure Application where
  id : Nat
  job_posting_id : Nat
  status : String
  application_date : Int
  company : String
  position : String
  resume_id : Nat
  cover_letter_id : Nat
  deriving Repr, DecidableEq

structure AppFilters where
  status : String
  dateRange : String
  search : String
  deriving Repr, DecidableEq

/-- The predicate of `applications.filter(app => ...)` in `ApplicationTracker`:
an application is rejected when the status filter is set and differs, when a
non-empty search term occurs in neither company nor position
(case-insensitively), or when the `month` date-range filter is active and the
application date is older than thirty days before `now`. -/
def keepApplication (now : Int) (f : AppFilters) (app : Application) : Bool :=
  (f.status == "all" || app.status == f.status)
    && (f.search == ""
        || includesB (lowerStr app.company) (lowerStr f.search)
        || includesB (lowerStr app.position) (lowerStr f.search))
    && (f.dateRange == "all"
        || !(f.dateRange == "month" && app.application_date < now - 30))

/-- The `filteredApplications` value of `ApplicationTracker`. -/
def filteredApplications (now : Int) (f : AppFilters) (apps : List Application) :
    List Application :=
  apps.filter (keepApplication now f)

/-- The initial filter state of `ApplicationTracker`:
`{ status: "all", dateRange: "all", search: "" }`. -/
def defaultAppFilters : AppFilters := { status := "all", dateRange := "all", search := "" }

/-! ### Authentication state (src/job_hunt_ui/src/hooks/useAuth.tsx, src/job_hunt_ui/src/App.tsx) -/

structure User where
  id : Nat
  uuid : String
  username : String
  email : String
  first_name : Option String
  last_name : Option String
  linkedin_url : Option String
  created_at : String
  updated_at : String
  deriving Repr, DecidableEq

/-- The provider state of `useAuth`: the `user` and `token` React states plus
the `localStorage` copy of the token and the `isLoading` flag. -/
structure AuthState where
  user : Option User
  token : Option String
  storedToken : Option String
  isLoading : Bool
  deriving Repr, DecidableEq

/-- The `isAuthenticated: !!user` entry of the auth context value. -/
def isAuthenticated (s : AuthState) : Bool := s.user.isSome

/-- The `logout` function: `localStorage.removeItem("token"); setToken(null);
setUser(null);`.  It does not touch `isLoading`. -/
def logout (s : AuthState) : AuthState :=
  { s with user := none, token := none, storedToken := none }

/-- What a `ProtectedRoute` renders. -/
inductive RouteRender where
  | loading : RouteRender
  | redirect : String → RouteRender
  | content : RouteRender
  deriving Repr, DecidableEq

/-- The `ProtectedRoute` component of `App.tsx`: show the loading placeholder while
`isLoading`, redirect to `/login` when not authenticated, otherwise render
the children. -/
def protectedRoute (s : AuthState) : RouteRender :=
  if s.isLoading then .loading
  else if isAuthenticated s = false then .redirect "/login"
  else .content

/-! ### Match records and the ranking of `handleMatchJobs` (src/unnamed/part_000)

`handleMatchJobs` attaches to every job the score of the match record whose
`job_id` equals the job's id (`match_score: 0` when none is found) and then
sorts by score descending with `enhancedJobs.sort((a, b) => b.match_score -
a.match_score)`.  JavaScript `Array.prototype.sort` is stable, so the result
is the unique stable descending-by-score permutation; it is modelled here by
a stable insertion sort with that comparator. -/

structure MatchEntry where
  job_id : Nat
  match_score : ℚ
  match_details : String
  deriving Repr, DecidableEq

/-- The enhancement step `matches.find(m => m.job_id === job.id) || { match_score: 0 }` followed by
`{ ...job, match_score: match.match_score }`. -/
def enhanceJobs (jobs : List Job) (ms : List MatchEntry) : List Job :=
  jobs.map fun job =>
    match ms.find? (fun m => m.job_id == job.id) with
    | some m => { job with match_score := m.match_score }
    | none => { job with match_score := 0 }

/-- Stable insertion of a job into a list already sorted by descending
`match_score`: the inserted element goes before the first strictly smaller
score and after earlier elements with an equal or larger score. -/
def insertByScore (x : Job) : List Job → List Job
  | [] => [x]
  | y :: ys =>
    if y.match_score ≤ x.match_score then x :: y :: ys else y :: insertByScore x ys

/-- The sort `enhancedJobs.sort((a, b) => b.match_score - a.match_score)` — a stable
sort by descending match score. -/
def sortByScoreDesc : List Job → List Job
  | [] => []
  | x :: xs => insertByScore x (sortByScoreDesc xs)

/-- The ranking step of `handleMatchJobs`: enhance, then sort. -/
def handleMatchJobsRank (jobs : List Job) (ms : List MatchEntry) : List Job :=
  sortByScoreDesc (enhanceJobs jobs ms)

/-! ### Matching engine (modelled from the spec)

The Python matching engine is not part of the repository snapshot; the
definitions below are modelled from the specification, section 4.4:
`score(JobPosting, CandidateProfile)` is a weighted sum of four factors, each
normalized to `[0,1]`, with the sponsorship-compliance factor acting as a
hard filter. -/

/-- Job-type enum of the normalized data model. -/
inductive JobType where
  | fullTime | partTime | contract | unknown
  deriving Repr, DecidableEq

/-- Posting status enum of the normalized data model. -/
inductive PostingStatus where
  | new | reviewed | applied | rejected | archived
  deriving Repr, DecidableEq

/-- Modelled from the spec: the normalized, durable `JobPosting` of section 3.
The content fingerprint is represented by its preimage key — the lower-cased
title, lower-cased company and first 500 normalized description characters
that the spec's stable hash is computed over.  The posting's
required/mentioned skill list (present in the database schema as
`required_skills`) is carried for the matching engine. -/
structure JobPosting where
  pid : Nat
  title : String
  company : String
  location : String
  jobType : JobType
  description : String
  applicationUrl : String
  fingerprint : String × String × String
  sponsorshipFlag : Bool
  exclusionFlag : Bool
  skills : List String
  sourceId : Nat
  firstSeen : Nat
  lastSeen : Nat
  status : PostingStatus
  deriving Repr, DecidableEq

/-- Modelled from the spec: the external, read-only `CandidateProfile` of
section 3 (skills, target roles, location preferences, sponsorship
requirement). -/
structure CandidateProfile where
  skills : List String
  targetRoles : List String
  preferredLocations : List String
  requiresSponsorship : Bool
  deriving Repr, DecidableEq

/-- Whitespace-separated lower-cased tokens of a string. -/
def tokensOf (s : String) : List String :=
  ((lowerStr s).splitOn " ").filter (fun t => t ≠ "")

/-- Modelled from the spec: skill-overlap factor — the fraction of the
posting's skills present among the profile's skills, `0` when the posting
lists no skills. -/
def skillFactor (prof : CandidateProfile) (p : JobPosting) : ℚ :=
  match p.skills with
  | [] => 0
  | _ => ((p.skills.filter (fun s => prof.skills.contains s)).length : ℚ)
      / (p.skills.length : ℚ)

/-- Modelled from the spec: title-similarity factor — the token-overlap ratio
between the profile's target roles and the posting title, `0` when the title
has no tokens. -/
def titleFactor (prof : CandidateProfile) (p : JobPosting) : ℚ :=
  match tokensOf p.title with
  | [] => 0
  | _ =>
    (((tokensOf p.title).filter
        (fun t => ((prof.targetRoles.map tokensOf).flatten).contains t)).length : ℚ)
      / ((tokensOf p.title).length : ℚ)

/-- Modelled from the spec: location factor — `1` for an exact or `remote`
match, `1/2` when a preferred location shares the posting's metro (metro
assignment `metroOf` is a configuration input), `0` otherwise. -/
def locationFactor (metroOf : String → String) (prof : CandidateProfile)
    (p : JobPosting) : ℚ :=
  if lowerStr p.location == "remote" || prof.preferredLocations.contains p.location then 1
  else if prof.preferredLocations.any (fun l => metroOf l == metroOf p.location) then 1/2
  else 0

/-- Modelled from the spec: sponsorship-compliance factor — `1` if the profile
does not require sponsorship or the posting's sponsorship flag is set, `0`
otherwise. -/
def sponsorshipFactor (prof : CandidateProfile) (p : JobPosting) : ℚ :=
  if !prof.requiresSponsorship || p.sponsorshipFlag then 1 else 0

/-- Factor weights of the matching engine; the spec treats them as
configuration inputs, nonnegative and summing to `1`. -/
structure MatchWeights where
  skill : ℚ
  title : ℚ
  location : ℚ
  sponsorship : ℚ
  deriving Repr, DecidableEq

/-- Validity of a weight configuration: nonnegative weights summing to `1`. -/
def MatchWeights.valid (w : MatchWeights) : Prop :=
  0 ≤ w.skill ∧ 0 ≤ w.title ∧ 0 ≤ w.location ∧ 0 ≤ w.sponsorship ∧
    w.skill + w.title + w.location + w.sponsorship = 1

instance (w : MatchWeights) : Decidable w.valid := by
  unfold MatchWeights.valid; infer_instance

/-- Modelled from the spec: the overall score — `0` whenever the sponsorship
factor is `0` (hard filter), otherwise the weighted sum of the four factors. -/
def score (w : MatchWeights) (metroOf : String → String) (p : JobPosting)
    (prof : CandidateProfile) : ℚ :=
  if sponsorshipFactor prof p = 0 then 0
  else
    w.skill * skillFactor prof p + w.title * titleFactor prof p
      + w.location * locationFactor metroOf prof p
      + w.sponsorship * sponsorshipFactor prof p

/-- The `MatchResult` of the data model: posting id, profile id, numeric score,
contributing factors (name, weight, raw value) and computed-at timestamp. -/
structure MatchResult where
  postingId : Nat
  profileId : Nat
  score : ℚ
  factors : List (String × ℚ × ℚ)
  computedAt : Nat
  deriving Repr, DecidableEq

/-- Modelled from the spec: the `score` operation packaged as a `MatchResult`. -/
def scoreResult (w : MatchWeights) (metroOf : String → String) (p : JobPosting)
    (prof : CandidateProfile) (profileId now : Nat) : MatchResult :=
  { postingId := p.pid
    profileId := profileId
    score := score w metroOf p prof
    factors :=
      [("skill_overlap", w.skill, skillFactor prof p),
       ("title_similarity", w.title, titleFactor prof p),
       ("location_match", w.location, locationFactor metroOf prof p),
       ("sponsorship_compliance", w.sponsorship, sponsorshipFactor prof p)]
    computedAt := now }

/-! ### Normalizer (modelled from the spec, keyword lists from src/config/job_boards.json)

The Python normalizer is not part of the repository snapshot; `normalize` is
modelled from the specification, section 4.3.  The keyword lists are the
repository's own configuration data. -/

/-- The `h1b_sponsorship_keywords` list of `src/config/job_boards.json`. -/
def sponsorshipKeywords : List String :=
  ["h1b", "h-1b", "visa sponsorship", "sponsorship available", "will sponsor", "visa"]

/-- The `exclude_keywords` list of `src/config/job_boards.json`. -/
def excludeKeywords : List String :=
  ["clearance", "security clearance", "US citizen", "citizenship required"]

/-- Modelled from the spec: the raw posting produced by an adapter (source id,
title, company, location, raw description, application URL, optional
posted-date string, scrape timestamp) together with the source-native
job-type string that normalization classifies. -/
structure RawPosting where
  sourceId : Nat
  title : String
  company : String
  location : String
  description : String
  applicationUrl : String
  jobTypeRaw : String
  postedDate : Option String
  scrapedAt : Nat
  deriving Repr, DecidableEq

/-- Trim and collapse whitespace: runs of spaces become one space, leading and
trailing spaces disappear. -/
def collapseWs (s : String) : String :=
  String.intercalate " " ((s.splitOn " ").filter (fun t => t ≠ ""))

/-- Modelled from the spec: lower-cased job-type classification onto the fixed
enum; every unrecognized string maps to `unknown`. -/
def classifyJobType (s : String) : JobType :=
  if lowerStr s == "full-time" then .fullTime
  else if lowerStr s == "part-time" then .partTime
  else if lowerStr s == "contract" then .contract
  else .unknown

/-- Case-insensitive keyword scan of title and description: true when some
keyword of the list occurs as a substring of the lower-cased title or of the
lower-cased description. -/
def keywordHit (keywords : List String) (title description : String) : Bool :=
  keywords.any fun k =>
    includesB (lowerStr title) (lowerStr k) || includesB (lowerStr description) (lowerStr k)

/-- Modelled from the spec: the content fingerprint key — lower-cased title,
lower-cased company, first 500 normalized description characters. -/
def fingerprintOf (title company description : String) : String × String × String :=
  (lowerStr title, lowerStr company, String.mk ((lowerStr description).toList.take 500))

/-- Modelled from the spec: `normalize(RawPosting) -> JobPosting` — whitespace
normalization, job-type classification, keyword-derived flags, fingerprint;
skill extraction is a downstream analysis step, so the skill list starts
empty.  Every raw posting yields a posting; none is dropped. -/
def normalize (r : RawPosting) (freshId : Nat) (now : Nat) : JobPosting :=
  let title := collapseWs r.title
  let company := collapseWs r.company
  let desc := collapseWs r.description
  { pid := freshId
    title := title
    company := company
    location := collapseWs r.location
    jobType := classifyJobType r.jobTypeRaw
    description := desc
    applicationUrl := r.applicationUrl
    fingerprint := fingerprintOf title company desc
    sponsorshipFlag := keywordHit sponsorshipKeywords title desc
    exclusionFlag := keywordHit excludeKeywords title desc
    skills := []
    sourceId := r.sourceId
    firstSeen := now
    lastSeen := now
    status := .new }

/-! ### Deduplicator (modelled from the spec, section 4.3)

Dedup policy: a posting whose fingerprint matches an existing non-archived
row updates that row's last-seen timestamp and mutable fields (location);
status and first-seen are unaffected and no new row is inserted.  Otherwise a
new row is inserted. -/

/-- Is the stored row a non-archived (active) posting? -/
def isActive (r : JobPosting) : Bool := !(r.status == PostingStatus.archived)

/-- Does the store hold a non-archived row with this fingerprint? -/
def hasActiveFp (store : List JobPosting) (fp : String × String × String) : Bool :=
  store.any fun r => r.fingerprint == fp && isActive r

/-- Modelled from the spec: the rescrape update of an existing row — last-seen
becomes the current time and the mutable location field is refreshed; every
other field (status included) is left alone. -/
def refreshRow (r : JobPosting) (p : JobPosting) (now : Nat) : JobPosting :=
  { r with lastSeen := now, location := p.location }

/-- The per-row step of the upsert: refresh the row when it is the
non-archived row carrying the incoming posting's fingerprint, keep it
untouched otherwise. -/
def refreshIfMatch (p : JobPosting) (now : Nat) (r : JobPosting) : JobPosting :=
  if r.fingerprint == p.fingerprint && isActive r then refreshRow r p now else r

/-- Modelled from the spec: upsert-by-fingerprint.  When a non-archived row
with the incoming posting's fingerprint exists it is refreshed in place;
otherwise the incoming posting is appended as a new row. -/
def dedupUpsert (store : List JobPosting) (p : JobPosting) (now : Nat) :
    List JobPosting :=
  if hasActiveFp store p.fingerprint then store.map (refreshIfMatch p now)
  else store ++ [p]

/-- The fingerprint-uniqueness invariant: pairwise distinct fingerprints among
the non-archived rows of the store. -/
def FpUnique (store : List JobPosting) : Prop :=
  (store.filter isActive).Pairwise (fun a b => a.fingerprint ≠ b.fingerprint)

instance (store : List JobPosting) : Decidable (FpUnique store) := by
  unfold FpUnique; infer_instance

/-! ### Scraper orchestrator (modelled from the spec, sections 4.1 and 7)

Fetch failures retry up to a bound; parse failures do not retry; after the
bound is exhausted the source is marked failed-for-this-run and orchestration
continues with the remaining sources. -/

/-- Adapter kind enum of `SourceDefinition`. -/
inductive AdapterKind where
  | selector | workday | greenhouse | lever
  deriving Repr, DecidableEq

/-- Modelled from the spec: `SourceDefinition` of section 3. -/
structure SourceDefinition where
  id : Nat
  name : String
  baseUrl : String
  adapterKind : AdapterKind
  adapterParams : Option (List (String × String))
  enabled : Bool
  politenessInterval : Nat
  deriving Repr, DecidableEq

/-- Outcome of one fetch-and-adapt attempt against a source. -/
inductive FetchOutcome where
  | success : List RawPosting → FetchOutcome
  | fetchFailure : FetchOutcome
  | parseFailure : FetchOutcome
  deriving Repr, DecidableEq

/-- Per-source result of an orchestration run. -/
inductive SourceResult where
  | ok : List RawPosting → SourceResult
  | failedFetch : SourceResult
  | failedParse : SourceResult
  deriving Repr, DecidableEq

/-- Did the source fail for this run? -/
def SourceResult.isFailure : SourceResult → Bool
  | .ok _ => false
  | .failedFetch => true
  | .failedParse => true

/-- Modelled from the spec: fetch with retry.  `fetch sid k` is the outcome of
attempt `k` against source `sid`; a fetch failure is retried while retries
remain, a parse failure is surfaced at once, and an exhausted retry bound
marks the source failed-for-this-run. -/
def runSourceAux (fetch : Nat → Nat → FetchOutcome) (sid : Nat) :
    Nat → Nat → SourceResult
  | 0, attempt =>
    match fetch sid attempt with
    | .success ps => .ok ps
    | .parseFailure => .failedParse
    | .fetchFailure => .failedFetch
  | n + 1, attempt =>
    match fetch sid attempt with
    | .success ps => .ok ps
    | .parseFailure => .failedParse
    | .fetchFailure => runSourceAux fetch sid n (attempt + 1)

/-- One source's fetch-and-adapt with the run's retry bound. -/
def runSource (fetch : Nat → Nat → FetchOutcome) (bound : Nat)
    (s : SourceDefinition) : SourceResult :=
  runSourceAux fetch s.id bound 0

/-- Modelled from the spec: the orchestration run — every enabled source is
processed in turn, each yielding a per-source summary; a source's failure
only produces a failed summary and the run continues with the rest. -/
def orchestrate (fetch : Nat → Nat → FetchOutcome) (bound : Nat) :
    List SourceDefinition → List (Nat × SourceResult)
  | [] => []
  | s :: rest =>
    if s.enabled then (s.id, runSource fetch bound s) :: orchestrate fetch bound rest
    else orchestrate fetch bound rest

/-! ### Workflow engine state machine (modelled from the spec, sections 4.5 and 5) -/

/-- Workflow states of section 4.5. -/
inductive WState where
  | pending | navigating | authenticating | formFilling
  | captchaPending | submitting | retrying
  | confirmed | failed | abandoned
  deriving Repr, DecidableEq

/-- The three terminal states. -/
def isTerminal : WState → Bool
  | .confirmed => true
  | .failed => true
  | .abandoned => true
  | _ => false

/-- Events driving the workflow state machine. -/
inductive WEvent where
  | stepOk | recoverableErr | captchaDetected
  | resumeSignal | captchaTimeout | backoffDone | cancel
  deriving Repr, DecidableEq

/-- A workflow run's machine-relevant state: current state, the state a
`Retrying` meta-state re-enters, and the attempt count. -/
structure WRun where
  st : WState
  retryFrom : WState
  attempts : Nat
  deriving Repr, DecidableEq

/-- Modelled from the spec: entering the `Retrying` meta-state from `failedAt`
on a recoverable error — or `Failed` once the attempt bound is exceeded. -/
def toRetry (r : WRun) (failedAt : WState) (maxAttempts : Nat) : WRun :=
  if maxAttempts ≤ r.attempts + 1 then
    { r with st := .failed, attempts := r.attempts + 1 }
  else
    { r with st := .retrying, retryFrom := failedAt, attempts := r.attempts + 1 }

/-- Modelled from the spec: the pure transition function of the workflow state
machine.  A terminal run is immutable; `cancel` sends every non-terminal
state to `Abandoned`; recoverable errors route through `Retrying` with an
attempt bound; `CaptchaPending` suspends until an explicit resume signal or
times out into `Failed`. -/
def wstep (maxAttempts : Nat) (r : WRun) (e : WEvent) : WRun :=
  if isTerminal r.st then r
  else
    match r.st, e with
    | _, .cancel => { r with st := .abandoned }
    | .pending, .stepOk => { r with st := .navigating }
    | .navigating, .stepOk => { r with st := .authenticating }
    | .authenticating, .stepOk => { r with st := .formFilling }
    | .formFilling, .stepOk => { r with st := .submitting }
    | .submitting, .stepOk => { r with st := .confirmed }
    | .navigating, .recoverableErr => toRetry r .navigating maxAttempts
    | .authenticating, .recoverableErr => toRetry r .authenticating maxAttempts
    | .formFilling, .recoverableErr => toRetry r .formFilling maxAttempts
    | .submitting, .recoverableErr => toRetry r .submitting maxAttempts
    | .formFilling, .captchaDetected => { r with st := .captchaPending }
    | .captchaPending, .resumeSignal => { r with st := .formFilling }
    | .captchaPending, .captchaTimeout => { r with st := .failed }
    | .retrying, .backoffDone => { r with st := r.retryFrom }
    | _, _ => r

/-- Running a sequence of events through the state machine. -/
def wrun (maxAttempts : Nat) (r : WRun) (evs : List WEvent) : WRun :=
  evs.foldl (wstep maxAttempts) r

/-! ### Concrete sample inputs used to instantiate the theorems below -/

/-- A sample UI job record with a given id and scrape date. -/
def sampleJob (id : Nat) (scraped : String) : Job :=
  { id := id
    title := "Software Engineer"
    company := "Acme"
    location := "Remote"
    job_type := "full-time"
    description := "Build things"
    application_url := "https://acme.example/apply"
    source_website := "acme"
    date_posted := "2025-05-01"
    date_scraped := scraped
    salary_range := ""
    h1b_sponsorship := true
    status := "new"
    match_score := 0
    created_at := scraped
    updated_at := scraped }

/-- A sample normalized posting with a given sponsorship flag and skill list. -/
def samplePosting (flag : Bool) (skills : List String) : JobPosting :=
  { pid := 7
    title := "backend engineer"
    company := "acme"
    location := "Austin"
    jobType := .fullTime
    description := "python services"
    applicationUrl := "https://acme.example/7"
    fingerprint := ("backend engineer", "acme", "python services")
    sponsorshipFlag := flag
    exclusionFlag := false
    skills := skills
    sourceId := 3
    firstSeen := 100
    lastSeen := 100
    status := .new }

/-- A sample candidate profile requiring sponsorship. -/
def sampleProfile : CandidateProfile :=
  { skills := ["python", "sql"]
    targetRoles := ["backend engineer"]
    preferredLocations := ["Austin"]
    requiresSponsorship := true }

/-- A valid weight configuration: all weight on the skill factor. -/
def sampleWeights : MatchWeights :=
  { skill := 1, title := 0, location := 0, sponsorship := 0 }

/-- A sample stored row for the dedup theorems. -/
def sampleRow : JobPosting := samplePosting true ["python"]

/-- An incoming posting with the same fingerprint as `sampleRow` but a new
location. -/
def sampleIncoming : JobPosting :=
  { samplePosting true ["python"] with location := "Dallas", lastSeen := 200 }

/-- A sample source definition. -/
def sampleSource (id : Nat) : SourceDefinition :=
  { id := id
    name := "Acme"
    baseUrl := "https://acme.example"
    adapterKind := .selector
    adapterParams := some [("title", ".job-title")]
    enabled := true
    politenessInterval := 5 }

/-- A sample authenticated user. -/
def sampleUser : User :=
  { id := 1
    uuid := "u-1"
    username := "kg"
    email := "kg@example.com"
    first_name := some "K"
    last_name := none
    linkedin_url := none
    created_at := "2025-05-01"
    updated_at := "2025-05-01" }

/-- A fetch behavior that fails every attempt against every source. -/
def failFetch : Nat → Nat → FetchOutcome := fun _ _ => .fetchFailure

/-! ## Theorems -/

/-! ### Helper lemmas on the stable descending sort -/

theorem insertByScore_perm (x : Job) (l : List Job) :
    List.Perm (insertByScore x l) (x :: l) := by
  induction l with
  | nil => exact List.Perm.refl _
  | cons y ys ih =>
    by_cases hc : y.match_score ≤ x.match_score
    · simp [insertByScore, hc]
    · simp only [insertByScore, if_neg hc]
      exact (ih.cons y).trans (List.Perm.swap x y ys)

theorem sortByScoreDesc_perm (l : List Job) : List.Perm (sortByScoreDesc l) l := by
  induction l with
  | nil => exact List.Perm.refl _
  | cons x xs ih =>
    exact (insertByScore_perm x (sortByScoreDesc xs)).trans (ih.cons x)

theorem sorted_insertByScore (x : Job) (l : List Job)
    (h : l.Sorted (fun a b => b.match_score ≤ a.match_score)) :
    (insertByScore x l).Sorted (fun a b => b.match_score ≤ a.match_score) := by
  induction l with
  | nil => simp [insertByScore]
  | cons y ys ih =>
    rw [List.sorted_cons] at h
    obtain ⟨hy, hys⟩ := h
    by_cases hc : y.match_score ≤ x.match_score
    · simp only [insertByScore, if_pos hc]
      rw [List.sorted_cons]
      refine ⟨?_, by rw [List.sorted_cons]; exact ⟨hy, hys⟩⟩
      intro b hb
      rcases List.mem_cons.mp hb with rfl | hb
      · exact hc
      · exact le_trans (hy b hb) hc
    · simp only [insertByScore, if_neg hc]
      rw [List.sorted_cons]
      refine ⟨?_, ih hys⟩
      intro b hb
      rcases List.mem_cons.mp ((insertByScore_perm x ys).mem_iff.mp hb) with rfl | hb2
      · exact le_of_lt (lt_of_not_le hc)
      · exact hy b hb2

theorem sorted_sortByScoreDesc (l : List Job) :
    (sortByScoreDesc l).Sorted (fun a b => b.match_score ≤ a.match_score) := by
  induction l with
  | nil => simp [sortByScoreDesc]
  | cons x xs ih => exact sorted_insertByScore x (sortByScoreDesc xs) ih

theorem filter_insertByScore (q : ℚ) (x : Job) (l : List Job) :
    (insertByScore x l).filter (fun j => j.match_score == q)
      = ((x :: l).filter (fun j => j.match_score == q)) := by
  induction l with
  | nil => rfl
  | cons y ys ih =>
    by_cases hc : y.match_score ≤ x.match_score
    · simp [insertByScore, hc]
    · simp only [insertByScore, if_neg hc]
      rw [List.filter_cons, ih]
      rw [List.filter_cons, List.filter_cons, List.filter_cons]
      by_cases hx : (x.match_score == q) = true
      · have hxq : x.match_score = q := by exact_mod_cast beq_iff_eq.mp hx
        by_cases hyq : (y.match_score == q) = true
        · exact absurd (le_of_eq (by rw [beq_iff_eq.mp hyq, hxq])) hc
        · simp [hx, hyq]
      · by_cases hyq : (y.match_score == q) = true
        · simp [hx, hyq]
        · simp [hx, hyq]

theorem filter_sortByScoreDesc (q : ℚ) (l : List Job) :
    (sortByScoreDesc l).filter (fun j => j.match_score == q)
      = l.filter (fun j => j.match_score == q) := by
  induction l with
  | nil => rfl
  | cons x xs ih =>
    rw [sortByScoreDesc, filter_insertByScore, List.filter_cons, List.filter_cons, ih]

/-- C3 counterexample: with two jobs of equal match score, `handleMatchJobs`
keeps the input order, so the job with the OLDER scrape date (id 1, scraped
2025-05-01) is ranked before the newer one (id 2, scraped 2025-05-10) — the
claimed newest-first tie-break does not happen. -/
theorem rank_tiebreak_counterexample :
    (handleMatchJobsRank [sampleJob 1 "2025-05-01", sampleJob 2 "2025-05-10"]
        [⟨1, 1, "d1"⟩, ⟨2, 1, "d2"⟩]).map Job.id = [1, 2]
    ∧ (handleMatchJobsRank [sampleJob 1 "2025-05-01", sampleJob 2 "2025-05-10"]
        [⟨1, 1, "d1"⟩, ⟨2, 1, "d2"⟩]).map Job.match_score = [1, 1]
    ∧ (sampleJob 1 "2025-05-01").date_scraped < (sampleJob 2 "2025-05-10").date_scraped := by
  refine ⟨by decide, by decide, ?_⟩
  show ("2025-05-01" : String) < "2025-05-10"
  rw [String.lt_iff_toList_lt]
  decide

/-- C3 (amended): the ranking of `handleMatchJobs` is a permutation of the
score-enhanced input jobs, sorted in non-increasing order of match score;
jobs with equal scores keep their relative input order (the sort is stable) —
there is no tie-break by first-seen timestamp. -/
theorem rank_sorted_stable (jobs : List Job) (ms : List MatchEntry) :
    List.Perm (handleMatchJobsRank jobs ms) (enhanceJobs jobs ms)
    ∧ (handleMatchJobsRank jobs ms).Sorted (fun a b => b.match_score ≤ a.match_score)
    ∧ ∀ q : ℚ, (handleMatchJobsRank jobs ms).filter (fun j => j.match_score == q)
        = (enhanceJobs jobs ms).filter (fun j => j.match_score == q) := by
  refine ⟨sortByScoreDesc_perm _, sorted_sortByScoreDesc _, fun q => ?_⟩
  exact filter_sortByScoreDesc q (enhanceJobs jobs ms)

/-- C1: when the profile requires sponsorship and the posting's sponsorship
flag is not set, the score is exactly `0`, whatever the weights, metro
assignment and all other posting and profile fields. -/
theorem sponsorship_hard_filter_score_zero (w : MatchWeights)
    (metroOf : String → String) (p : JobPosting) (prof : CandidateProfile)
    (hreq : prof.requiresSponsorship = true) (hflag : p.sponsorshipFlag = false) :
    score w metroOf p prof = 0 := by
  simp [score, sponsorshipFactor, hreq, hflag]

/-- C1 witness: a concrete sponsorship-requiring profile against a
non-sponsoring posting scores `0` even with nonzero factor weights and a
full skill overlap. -/
theorem sponsorship_hard_filter_score_zero_witness :
    sampleProfile.requiresSponsorship = true
    ∧ (samplePosting false ["python", "sql"]).sponsorshipFlag = false
    ∧ score sampleWeights id (samplePosting false ["python", "sql"]) sampleProfile = 0 :=
  ⟨rfl, rfl,
    sponsorship_hard_filter_score_zero sampleWeights id
      (samplePosting false ["python", "sql"]) sampleProfile rfl rfl⟩

/-! ### Helper lemmas on the matching factors -/

theorem skillFactor_mem_unit (prof : CandidateProfile) (p : JobPosting) :
    0 ≤ skillFactor prof p ∧ skillFactor prof p ≤ 1 := by
  rcases hs : p.skills with _ | ⟨a, l⟩
  · simp [skillFactor, hs]
  · have hlen : ((a :: l).filter (fun s => prof.skills.contains s)).length
        ≤ (a :: l).length := List.length_filter_le _ _
    have hpos : (0 : ℚ) < ((a :: l).length : ℚ) := by
      exact_mod_cast Nat.succ_pos l.length
    constructor
    · rw [skillFactor, hs]
      exact div_nonneg (Nat.cast_nonneg _) (Nat.cast_nonneg _)
    · rw [skillFactor, hs]
      rw [div_le_one hpos]
      exact_mod_cast hlen

theorem titleFactor_mem_unit (prof : CandidateProfile) (p : JobPosting) :
    0 ≤ titleFactor prof p ∧ titleFactor prof p ≤ 1 := by
  rcases hs : tokensOf p.title with _ | ⟨a, l⟩
  · simp [titleFactor, hs]
  · constructor
    · rw [titleFactor, hs]
      exact div_nonneg (Nat.cast_nonneg _) (Nat.cast_nonneg _)
    · rw [titleFactor, hs]
      rw [div_le_one (by exact_mod_cast Nat.succ_pos l.length)]
      exact_mod_cast List.length_filter_le _ _

theorem locationFactor_mem_unit (metroOf : String → String)
    (prof : CandidateProfile) (p : JobPosting) :
    0 ≤ locationFactor metroOf prof p ∧ locationFactor metroOf prof p ≤ 1 := by
  unfold locationFactor
  split
  · norm_num
  · split <;> norm_num

theorem sponsorshipFactor_mem_unit (prof : CandidateProfile) (p : JobPosting) :
    0 ≤ sponsorshipFactor prof p ∧ sponsorshipFactor prof p ≤ 1 := by
  unfold sponsorshipFactor
  split <;> norm_num

/-- C6: for every posting, profile, metro assignment and valid weight
configuration, the score lies in `[0, 1]`, and the `MatchResult` produced by
the score operation carries exactly that score. -/
theorem score_in_unit_interval (w : MatchWeights) (metroOf : String → String)
    (p : JobPosting) (prof : CandidateProfile) (profileId now : Nat)
    (hw : w.valid) :
    0 ≤ score w metroOf p prof ∧ score w metroOf p prof ≤ 1
    ∧ (scoreResult w metroOf p prof profileId now).score = score w metroOf p prof := by
  obtain ⟨h1, h2, h3, h4, h5⟩ := hw
  have hsk := skillFactor_mem_unit prof p
  have hti := titleFactor_mem_unit prof p
  have hlo := locationFactor_mem_unit metroOf prof p
  have hsp := sponsorshipFactor_mem_unit prof p
  refine ⟨?_, ?_, rfl⟩
  · unfold score
    split
    · norm_num
    · exact add_nonneg
        (add_nonneg (add_nonneg (mul_nonneg h1 hsk.1) (mul_nonneg h2 hti.1))
          (mul_nonneg h3 hlo.1))
        (mul_nonneg h4 hsp.1)
  · unfold score
    split
    · norm_num
    · have u1 : w.skill * skillFactor prof p ≤ w.skill :=
        mul_le_of_le_one_right h1 hsk.2
      have u2 : w.title * titleFactor prof p ≤ w.title :=
        mul_le_of_le_one_right h2 hti.2
      have u3 : w.location * locationFactor metroOf prof p ≤ w.location :=
        mul_le_of_le_one_right h3 hlo.2
      have u4 : w.sponsorship * sponsorshipFactor prof p ≤ w.sponsorship :=
        mul_le_of_le_one_right h4 hsp.2
      linarith

/-- C6 witness: a concrete valid weight configuration, posting and profile,
whose score falls in `[0, 1]` and whose `MatchResult` carries it. -/
theorem score_in_unit_interval_witness :
    MatchWeights.valid sampleWeights
    ∧ (0 ≤ score sampleWeights id (samplePosting true ["python"]) sampleProfile
      ∧ score sampleWeights id (samplePosting true ["python"]) sampleProfile ≤ 1
      ∧ (scoreResult sampleWeights id (samplePosting true ["python"]) sampleProfile 1 100).score
          = score sampleWeights id (samplePosting true ["python"]) sampleProfile) :=
  ⟨by simp [MatchWeights.valid, sampleWeights],
   score_in_unit_interval sampleWeights id (samplePosting true ["python"]) sampleProfile 1 100
     (by simp [MatchWeights.valid, sampleWeights])⟩

/-! ### Workflow state machine lemmas -/

theorem wstep_terminal_fixed (maxA : Nat) (r : WRun) (e : WEvent)
    (h : isTerminal r.st = true) : wstep maxA r e = r := by
  simp [wstep, h]

theorem wrun_terminal_fixed (maxA : Nat) (r : WRun) (evs : List WEvent)
    (h : isTerminal r.st = true) : wrun maxA r evs = r := by
  induction evs with
  | nil => rfl
  | cons e evs ih =>
    show (e :: evs).foldl (wstep maxA) r = r
    rw [List.foldl_cons, wstep_terminal_fixed maxA r e h]
    exact ih

/-- C4: from every non-terminal state, the cancel event moves the run to the
terminal `Abandoned` state, and no subsequent event sequence can move it
anywhere else — a run that starts with cancel ends terminal (abandoned). -/
theorem cancel_reaches_abandoned (maxA : Nat) (r : WRun) (evs : List WEvent)
    (h : isTerminal r.st = false) :
    (wstep maxA r .cancel).st = .abandoned
    ∧ (wrun maxA (wstep maxA r .cancel) evs).st = .abandoned := by
  have hc : (wstep maxA r .cancel).st = .abandoned := by
    rcases r with ⟨st, rf, att⟩
    cases st <;> simp [wstep, isTerminal] at h ⊢
  have ht : isTerminal (wstep maxA r .cancel).st = true := by rw [hc]; rfl
  refine ⟨hc, ?_⟩
  rw [wrun_terminal_fixed maxA _ evs ht]
  exact hc

/-- C4 witness: cancelling a run in the non-terminal `FormFilling` state
yields `Abandoned`, and a further event sequence leaves it abandoned. -/
theorem cancel_reaches_abandoned_witness :
    isTerminal (WRun.mk .formFilling .pending 0).st = false
    ∧ ((wstep 3 ⟨.formFilling, .pending, 0⟩ .cancel).st = .abandoned
      ∧ (wrun 3 (wstep 3 ⟨.formFilling, .pending, 0⟩ .cancel)
          [.stepOk, .recoverableErr, .backoffDone]).st = .abandoned) :=
  ⟨rfl, cancel_reaches_abandoned 3 ⟨.formFilling, .pending, 0⟩
    [.stepOk, .recoverableErr, .backoffDone] rfl⟩

/-! ### Orchestrator lemmas -/

theorem orchestrate_append (fetch : Nat → Nat → FetchOutcome) (bound : Nat)
    (l₁ l₂ : List SourceDefinition) :
    orchestrate fetch bound (l₁ ++ l₂)
      = orchestrate fetch bound l₁ ++ orchestrate fetch bound l₂ := by
  induction l₁ with
  | nil => rfl
  | cons s rest ih =>
    cases h : s.enabled <;> simp [orchestrate, h, ih]

theorem mem_orchestrate (fetch : Nat → Nat → FetchOutcome) (bound : Nat)
    (t : SourceDefinition) (l : List SourceDefinition)
    (ht : t ∈ l) (he : t.enabled = true) :
    (t.id, runSource fetch bound t) ∈ orchestrate fetch bound l := by
  induction l with
  | nil => cases ht
  | cons s rest ih =>
    rcases List.mem_cons.mp ht with rfl | ht2
    · simp [orchestrate, he]
    · cases h : s.enabled
      · simpa [orchestrate, h] using ih ht2
      · simp only [orchestrate, h, if_pos]
        exact List.mem_cons_of_mem _ (ih ht2)

theorem runSourceAux_exhausted (fetch : Nat → Nat → FetchOutcome) (sid : Nat)
    (h : ∀ k, fetch sid k = .fetchFailure) :
    ∀ n attempt, runSourceAux fetch sid n attempt = .failedFetch := by
  intro n
  induction n with
  | zero => intro attempt; simp [runSourceAux, h attempt]
  | succ m ih =>
    intro attempt
    simp only [runSourceAux, h attempt]
    exact ih (attempt + 1)

/-- C5: if an enabled source fails for the run (after retries or from a parse
failure), the orchestration output still contains one entry per enabled
source: the result splits around the failed source, every enabled remaining
source's result is present, and even a source whose every fetch attempt
fails yields a failed-for-this-run marker rather than aborting. -/
theorem source_failure_isolated (fetch : Nat → Nat → FetchOutcome) (bound : Nat)
    (pre rest : List SourceDefinition) (s : SourceDefinition)
    (hs : s.enabled = true)
    (hf : (runSource fetch bound s).isFailure = true) :
    orchestrate fetch bound (pre ++ s :: rest)
      = orchestrate fetch bound pre
        ++ (s.id, runSource fetch bound s) :: orchestrate fetch bound rest
    ∧ (∀ t ∈ rest, t.enabled = true →
        (t.id, runSource fetch bound t) ∈ orchestrate fetch bound (pre ++ s :: rest))
    ∧ (∀ s2 : SourceDefinition, (∀ k, fetch s2.id k = .fetchFailure) →
        runSource fetch bound s2 = .failedFetch) := by
  refine ⟨?_, ?_, ?_⟩
  · rw [orchestrate_append]
    simp [orchestrate, hs]
  · intro t ht hte
    rw [orchestrate_append]
    apply List.mem_append_right
    have : orchestrate fetch bound (s :: rest)
        = (s.id, runSource fetch bound s) :: orchestrate fetch bound rest := by
      simp [orchestrate, hs]
    rw [this]
    exact List.mem_cons_of_mem _ (mem_orchestrate fetch bound t rest ht hte)
  · intro s2 hall
    exact runSourceAux_exhausted fetch s2.id hall bound 0

/-- C5 witness: with a fetch that fails every attempt, the first source is
marked failed and the second source is still processed. -/
theorem source_failure_isolated_witness :
    (sampleSource 1).enabled = true
    ∧ (runSource failFetch 2 (sampleSource 1)).isFailure = true
    ∧ (orchestrate failFetch 2 ([] ++ sampleSource 1 :: [sampleSource 2])
        = orchestrate failFetch 2 []
          ++ ((sampleSource 1).id, runSource failFetch 2 (sampleSource 1))
            :: orchestrate failFetch 2 [sampleSource 2]
      ∧ (∀ t ∈ [sampleSource 2], t.enabled = true →
          (t.id, runSource failFetch 2 t)
            ∈ orchestrate failFetch 2 ([] ++ sampleSource 1 :: [sampleSource 2]))
      ∧ (∀ s2 : SourceDefinition, (∀ k, failFetch s2.id k = .fetchFailure) →
          runSource failFetch 2 s2 = .failedFetch)) :=
  ⟨rfl, by decide,
    source_failure_isolated failFetch 2 [] [sampleSource 2] (sampleSource 1) rfl (by decide)⟩

/-! ### Deduplication lemmas -/

theorem refreshIfMatch_fingerprint (p : JobPosting) (now : Nat) (r : JobPosting) :
    (refreshIfMatch p now r).fingerprint = r.fingerprint := by
  unfold refreshIfMatch refreshRow
  split <;> rfl

theorem refreshIfMatch_active (p : JobPosting) (now : Nat) (r : JobPosting) :
    isActive (refreshIfMatch p now r) = isActive r := by
  unfold refreshIfMatch refreshRow isActive
  split <;> rfl

theorem fpUnique_refresh (store : List JobPosting) (p : JobPosting) (now : Nat)
    (hU : FpUnique store) : FpUnique (store.map (refreshIfMatch p now)) := by
  unfold FpUnique at hU ⊢
  rw [List.filter_map]
  rw [List.filter_congr (fun a _ => by
    show isActive (refreshIfMatch p now a) = isActive a
    exact refreshIfMatch_active p now a)]
  rw [List.pairwise_map]
  exact hU.imp fun {a b} hab => by
    rw [refreshIfMatch_fingerprint, refreshIfMatch_fingerprint]
    exact hab

theorem fpUnique_insert (store : List JobPosting) (p : JobPosting)
    (hU : FpUnique store) (hno : hasActiveFp store p.fingerprint = false) :
    FpUnique (store ++ [p]) := by
  unfold FpUnique at hU ⊢
  rw [List.filter_append, List.pairwise_append]
  refine ⟨hU, ?_, ?_⟩
  · cases hp : isActive p <;> simp [hp]
  · intro a ha b hb
    rw [List.mem_filter] at ha hb
    have hbp : b = p := by simpa using hb.1
    subst hbp
    intro heq
    have : hasActiveFp store b.fingerprint = true := by
      rw [hasActiveFp, List.any_eq_true]
      exact ⟨a, ha.1, by rw [Bool.and_eq_true, beq_iff_eq]; exact ⟨heq, ha.2⟩⟩
    rw [this] at hno
    cases hno

/-- C2: the deduplicating upsert.  Assuming the fingerprint-uniqueness
invariant, rescraping a posting whose fingerprint matches a non-archived row
keeps the store's length (no second row is ever inserted), refreshes exactly
the matching row — changing only its last-seen timestamp and mutable
location, with status, first-seen, fingerprint and content fields
untouched — and leaves every non-matching row as it was; with no active
match the posting is appended as a new row; in both cases the
fingerprint-uniqueness invariant holds afterwards. -/
theorem dedup_fingerprint_unique (store : List JobPosting) (p : JobPosting)
    (now : Nat) (i : Nat) (hU : FpUnique store)
    (hi : i < store.length) (hi2 : i < (dedupUpsert store p now).length) :
    FpUnique (dedupUpsert store p now)
    ∧ (hasActiveFp store p.fingerprint = true →
        (dedupUpsert store p now).length = store.length
        ∧ (((store.get ⟨i, hi⟩).fingerprint = p.fingerprint
              ∧ isActive (store.get ⟨i, hi⟩) = true) →
            (dedupUpsert store p now).get ⟨i, hi2⟩ = refreshRow (store.get ⟨i, hi⟩) p now
            ∧ (refreshRow (store.get ⟨i, hi⟩) p now).lastSeen = now
            ∧ (refreshRow (store.get ⟨i, hi⟩) p now).location = p.location
            ∧ (refreshRow (store.get ⟨i, hi⟩) p now).status = (store.get ⟨i, hi⟩).status
            ∧ (refreshRow (store.get ⟨i, hi⟩) p now).firstSeen = (store.get ⟨i, hi⟩).firstSeen
            ∧ (refreshRow (store.get ⟨i, hi⟩) p now).fingerprint = (store.get ⟨i, hi⟩).fingerprint
            ∧ (refreshRow (store.get ⟨i, hi⟩) p now).pid = (store.get ⟨i, hi⟩).pid
            ∧ (refreshRow (store.get ⟨i, hi⟩) p now).title = (store.get ⟨i, hi⟩).title
            ∧ (refreshRow (store.get ⟨i, hi⟩) p now).company = (store.get ⟨i, hi⟩).company
            ∧ (refreshRow (store.get ⟨i, hi⟩) p now).description = (store.get ⟨i, hi⟩).description)
        ∧ (¬((store.get ⟨i, hi⟩).fingerprint = p.fingerprint
              ∧ isActive (store.get ⟨i, hi⟩) = true) →
            (dedupUpsert store p now).get ⟨i, hi2⟩ = store.get ⟨i, hi⟩))
    ∧ (hasActiveFp store p.fingerprint = false →
        dedupUpsert store p now = store ++ [p]) := by
  refine ⟨?_, fun hyes => ⟨?_, fun hmatch => ⟨?_, rfl, rfl, rfl, rfl, rfl, rfl, rfl, rfl, rfl⟩,
    fun hnomatch => ?_⟩, fun hno => ?_⟩
  · by_cases hfp : hasActiveFp store p.fingerprint = true
    · rw [dedupUpsert, if_pos hfp]
      exact fpUnique_refresh store p now hU
    · rw [dedupUpsert, if_neg hfp]
      exact fpUnique_insert store p hU (Bool.eq_false_iff.mpr hfp)
  · rw [dedupUpsert, if_pos hyes, List.length_map]
  · rw [List.get_eq_getElem, List.get_eq_getElem]
    simp only [dedupUpsert, if_pos hyes, List.getElem_map]
    rw [refreshIfMatch, if_pos (by rw [Bool.and_eq_true, beq_iff_eq]; exact hmatch)]
  · rw [List.get_eq_getElem, List.get_eq_getElem]
    simp only [dedupUpsert, if_pos hyes, List.getElem_map]
    rw [refreshIfMatch, if_neg (by rw [Bool.and_eq_true, beq_iff_eq]; exact hnomatch)]
  · rw [dedupUpsert, if_neg (by rw [hno]; exact Bool.false_ne_true)]

/-- C2 witness: rescraping a posting whose fingerprint matches the single
stored active row updates that row in place and preserves uniqueness. -/
theorem dedup_fingerprint_unique_witness :
    FpUnique [sampleRow] ∧ 0 < ([sampleRow] : List JobPosting).length
    ∧ 0 < (dedupUpsert [sampleRow] sampleIncoming 200).length
    ∧ (FpUnique (dedupUpsert [sampleRow] sampleIncoming 200)
      ∧ (hasActiveFp [sampleRow] sampleIncoming.fingerprint = true →
          (dedupUpsert [sampleRow] sampleIncoming 200).length = ([sampleRow] : List JobPosting).length
          ∧ ((((([sampleRow] : List JobPosting).get ⟨0, by decide⟩).fingerprint = sampleIncoming.fingerprint
                ∧ isActive (([sampleRow] : List JobPosting).get ⟨0, by decide⟩) = true) →
              (dedupUpsert [sampleRow] sampleIncoming 200).get ⟨0, by decide⟩
                  = refreshRow (([sampleRow] : List JobPosting).get ⟨0, by decide⟩) sampleIncoming 200
              ∧ (refreshRow (([sampleRow] : List JobPosting).get ⟨0, by decide⟩) sampleIncoming 200).lastSeen = 200
              ∧ (refreshRow (([sampleRow] : List JobPosting).get ⟨0, by decide⟩) sampleIncoming 200).location = sampleIncoming.location
              ∧ (refreshRow (([sampleRow] : List JobPosting).get ⟨0, by decide⟩) sampleIncoming 200).status = (([sampleRow] : List JobPosting).get ⟨0, by decide⟩).status
              ∧ (refreshRow (([sampleRow] : List JobPosting).get ⟨0, by decide⟩) sampleIncoming 200).firstSeen = (([sampleRow] : List JobPosting).get ⟨0, by decide⟩).firstSeen
              ∧ (refreshRow (([sampleRow] : List JobPosting).get ⟨0, by decide⟩) sampleIncoming 200).fingerprint = (([sampleRow] : List JobPosting).get ⟨0, by decide⟩).fingerprint
              ∧ (refreshRow (([sampleRow] : List JobPosting).get ⟨0, by decide⟩) sampleIncoming 200).pid = (([sampleRow] : List JobPosting).get ⟨0, by decide⟩).pid
              ∧ (refreshRow (([sampleRow] : List JobPosting).get ⟨0, by decide⟩) sampleIncoming 200).title = (([sampleRow] : List JobPosting).get ⟨0, by decide⟩).title
              ∧ (refreshRow (([sampleRow] : List JobPosting).get ⟨0, by decide⟩) sampleIncoming 200).company = (([sampleRow] : List JobPosting).get ⟨0, by decide⟩).company
              ∧ (refreshRow (([sampleRow] : List JobPosting).get ⟨0, by decide⟩) sampleIncoming 200).description = (([sampleRow] : List JobPosting).get ⟨0, by decide⟩).description)
            ∧ (¬((([sampleRow] : List JobPosting).get ⟨0, by decide⟩).fingerprint = sampleIncoming.fingerprint
                ∧ isActive (([sampleRow] : List JobPosting).get ⟨0, by decide⟩) = true) →
              (dedupUpsert [sampleRow] sampleIncoming 200).get ⟨0, by decide⟩
                = ([sampleRow] : List JobPosting).get ⟨0, by decide⟩)))
      ∧ (hasActiveFp [sampleRow] sampleIncoming.fingerprint = false →
          dedupUpsert [sampleRow] sampleIncoming 200 = [sampleRow] ++ [sampleIncoming])) :=
  ⟨by decide, by decide, by decide,
    dedup_fingerprint_unique [sampleRow] sampleIncoming 200 0 (by decide) (by decide) (by decide)⟩

/-! ### Normalizer lemmas -/

theorem classify_cases (s : String) :
    (classifyJobType s = .fullTime ↔ lowerStr s = "full-time")
    ∧ (classifyJobType s = .partTime ↔ lowerStr s = "part-time")
    ∧ (classifyJobType s = .contract ↔ lowerStr s = "contract")
    ∧ (classifyJobType s = .unknown ↔
        (lowerStr s ≠ "full-time" ∧ lowerStr s ≠ "part-time" ∧ lowerStr s ≠ "contract")) := by
  unfold classifyJobType
  split_ifs with h1 h2 h3 <;> simp_all

theorem keywordHit_iff (kw : List String) (t d : String) :
    keywordHit kw t d = true ↔
      ∃ k ∈ kw, (lowerStr k).toList <:+: (lowerStr t).toList
        ∨ (lowerStr k).toList <:+: (lowerStr d).toList := by
  simp [keywordHit, includesB, List.any_eq_true]

/-- C7: normalization classifies the lower-cased job-type string onto the
fixed enum with every unrecognized string mapped to `unknown` (total — no
posting is dropped), and sets the sponsorship-signal and exclusion flags by
case-insensitive substring scan of the normalized title and description
against the configured keyword lists. -/
theorem normalize_classifies_and_flags (r : RawPosting) (freshId now : Nat) :
    ((normalize r freshId now).jobType = JobType.fullTime ↔
        lowerStr r.jobTypeRaw = "full-time")
    ∧ ((normalize r freshId now).jobType = JobType.partTime ↔
        lowerStr r.jobTypeRaw = "part-time")
    ∧ ((normalize r freshId now).jobType = JobType.contract ↔
        lowerStr r.jobTypeRaw = "contract")
    ∧ ((normalize r freshId now).jobType = JobType.unknown ↔
        (lowerStr r.jobTypeRaw ≠ "full-time" ∧ lowerStr r.jobTypeRaw ≠ "part-time"
          ∧ lowerStr r.jobTypeRaw ≠ "contract"))
    ∧ ((normalize r freshId now).sponsorshipFlag = true ↔
        ∃ k ∈ sponsorshipKeywords,
          (lowerStr k).toList <:+: (lowerStr (collapseWs r.title)).toList
          ∨ (lowerStr k).toList <:+: (lowerStr (collapseWs r.description)).toList)
    ∧ ((normalize r freshId now).exclusionFlag = true ↔
        ∃ k ∈ excludeKeywords,
          (lowerStr k).toList <:+: (lowerStr (collapseWs r.title)).toList
          ∨ (lowerStr k).toList <:+: (lowerStr (collapseWs r.description)).toList) := by
  obtain ⟨c1, c2, c3, c4⟩ := classify_cases r.jobTypeRaw
  exact ⟨c1, c2, c3, c4,
    keywordHit_iff sponsorshipKeywords (collapseWs r.title) (collapseWs r.description),
    keywordHit_iff excludeKeywords (collapseWs r.title) (collapseWs r.description)⟩

/-- C8: `updateJobStatus` rewrites only the status field of jobs whose id
matches, leaves every other job untouched, keeps the list length, and
touches the currently selected job only when its id matches. -/
theorem updateJobStatus_frame (jobs : List Job) (jobId : Nat) (status : String)
    (i : Nat) (hi : i < jobs.length)
    (hi2 : i < (updateJobsList jobs jobId status).length) :
    (updateJobsList jobs jobId status).length = jobs.length
    ∧ ((jobs.get ⟨i, hi⟩).id = jobId →
        (updateJobsList jobs jobId status).get ⟨i, hi2⟩
          = { jobs.get ⟨i, hi⟩ with status := status })
    ∧ ((jobs.get ⟨i, hi⟩).id ≠ jobId →
        (updateJobsList jobs jobId status).get ⟨i, hi2⟩ = jobs.get ⟨i, hi⟩)
    ∧ updateCurrentJob none jobId status = none
    ∧ (∀ j : Job, j.id = jobId →
        updateCurrentJob (some j) jobId status = some { j with status := status })
    ∧ (∀ j : Job, j.id ≠ jobId → updateCurrentJob (some j) jobId status = some j) := by
  refine ⟨by simp [updateJobsList], ?_, ?_, rfl, ?_, ?_⟩
  · intro h
    rw [List.get_eq_getElem] at h
    rw [List.get_eq_getElem, List.get_eq_getElem]
    simp only [updateJobsList, List.getElem_map]
    rw [if_pos h]
  · intro h
    rw [List.get_eq_getElem] at h
    rw [List.get_eq_getElem, List.get_eq_getElem]
    simp only [updateJobsList, List.getElem_map]
    rw [if_neg h]
  · intro j h
    simp [updateCurrentJob, h]
  · intro j h
    simp [updateCurrentJob, h]

/-- C8 witness: updating the status of job 1 in a one-job list while job 2 is
selected changes only that job's status and leaves the selected job alone. -/
theorem updateJobStatus_frame_witness :
    0 < ([sampleJob 1 "2025-05-01"] : List Job).length
    ∧ 0 < (updateJobsList [sampleJob 1 "2025-05-01"] 1 "applied").length
    ∧ ((updateJobsList [sampleJob 1 "2025-05-01"] 1 "applied").length
        = ([sampleJob 1 "2025-05-01"] : List Job).length
      ∧ ((([sampleJob 1 "2025-05-01"] : List Job).get ⟨0, by decide⟩).id = 1 →
          (updateJobsList [sampleJob 1 "2025-05-01"] 1 "applied").get ⟨0, by decide⟩
            = { ([sampleJob 1 "2025-05-01"] : List Job).get ⟨0, by decide⟩ with status := "applied" })
      ∧ ((([sampleJob 1 "2025-05-01"] : List Job).get ⟨0, by decide⟩).id ≠ 1 →
          (updateJobsList [sampleJob 1 "2025-05-01"] 1 "applied").get ⟨0, by decide⟩
            = ([sampleJob 1 "2025-05-01"] : List Job).get ⟨0, by decide⟩)
      ∧ updateCurrentJob none 1 "applied" = none
      ∧ (∀ j : Job, j.id = 1 →
          updateCurrentJob (some j) 1 "applied" = some { j with status := "applied" })
      ∧ (∀ j : Job, j.id ≠ 1 → updateCurrentJob (some j) 1 "applied" = some j)) :=
  ⟨by decide, by decide,
    updateJobStatus_frame [sampleJob 1 "2025-05-01"] 1 "applied" 0 (by decide) (by decide)⟩

/-- C9: the `ApplicationTracker` filter keeps an application exactly when the
status filter is `all` or equals the application's status, the search term is
empty or occurs case-insensitively in the company or position, and the
date-range filter is `all` or, for `month`, the application date is not older
than thirty days; with the default filters every application is kept. -/
theorem application_filter_spec (now : Int) (f : AppFilters)
    (apps : List Application) (a : Application) :
    (a ∈ filteredApplications now f apps ↔
      a ∈ apps
      ∧ (f.status = "all" ∨ a.status = f.status)
      ∧ (f.search = ""
          ∨ (lowerStr f.search).toList <:+: (lowerStr a.company).toList
          ∨ (lowerStr f.search).toList <:+: (lowerStr a.position).toList)
      ∧ (f.dateRange = "all" ∨ (f.dateRange = "month" → now - 30 ≤ a.application_date)))
    ∧ filteredApplications now defaultAppFilters apps = apps := by
  constructor
  · rw [filteredApplications, List.mem_filter]
    simp [keepApplication, includesB, not_lt, and_assoc]
    tauto
  · rw [filteredApplications]
    apply List.filter_eq_self.mpr
    intro b _
    simp [keepApplication, defaultAppFilters]

/-- C10: `isAuthenticated` is true exactly when a user is present; after
`logout` the user, token and stored token are all cleared, authentication is
false, and (once the initial loading phase is over) every protected route
renders the redirect to `/login` instead of its content. -/
theorem logout_forces_login_redirect (s : AuthState) (h : s.isLoading = false) :
    (isAuthenticated s = true ↔ s.user ≠ none)
    ∧ (logout s).user = none ∧ (logout s).token = none ∧ (logout s).storedToken = none
    ∧ isAuthenticated (logout s) = false
    ∧ protectedRoute (logout s) = RouteRender.redirect "/login" := by
  refine ⟨?_, rfl, rfl, rfl, rfl, ?_⟩
  · rw [isAuthenticated, Option.isSome_iff_ne_none]
  · simp [protectedRoute, logout, isAuthenticated, h]

/-- C10 witness: logging out from a concrete authenticated, loaded state
clears everything and makes protected routes redirect to `/login`. -/
theorem logout_forces_login_redirect_witness :
    (AuthState.mk (some sampleUser) (some "tok") (some "tok") false).isLoading = false
    ∧ ((isAuthenticated ⟨some sampleUser, some "tok", some "tok", false⟩ = true ↔
        (AuthState.mk (some sampleUser) (some "tok") (some "tok") false).user ≠ none)
      ∧ (logout ⟨some sampleUser, some "tok", some "tok", false⟩).user = none
      ∧ (logout ⟨some sampleUser, some "tok", some "tok", false⟩).token = none
      ∧ (logout ⟨some sampleUser, some "tok", some "tok", false⟩).storedToken = none
      ∧ isAuthenticated (logout ⟨some sampleUser, some "tok", some "tok", false⟩) = false
      ∧ protectedRoute (logout ⟨some sampleUser, some "tok", some "tok", false⟩)
          = RouteRender.redirect "/login") :=
  ⟨rfl, logout_forces_login_redirect ⟨some sampleUser, some "tok", some "tok", false⟩ rfl⟩

end JobHunt
